import Mathlib

/-!
Verification of the event-ingest and classification core of the beyla
repository (package `ebpfcommon` and its collaborators).  Go byte strings
are modelled as lists of byte values (`List Nat`); Go machine integers are
modelled as `Nat`/`Int` with explicit wrap-around where the source converts
between widths.  Each definition is a shallow embedding of the source
function of the same name unless its doc comment says it is modelled from
the specification (for repository code that is outside the provided
sources).
-/

namespace Beyla

set_option maxRecDepth 100000

/-- Go strings and byte slices, modelled as lists of byte values. -/
abbrev Bytes := List Nat

/-- Index of the first element satisfying a predicate, if any. -/
def firstIdxP (p : Nat → Bool) : Bytes → Option Nat
  | [] => none
  | b :: t => if p b then some 0 else (firstIdxP p t).map (· + 1)

/-- Embedding of Go `strings.IndexByte`: index of the first occurrence of
byte `c` in `s`, or `-1` when absent. -/
def indexByte (s : Bytes) (c : Nat) : Int :=
  match firstIdxP (fun b => b == c) s with
  | some i => (i : Int)
  | none => -1

/-- Embedding of `removeQuery` from `httpfltr_transform.go`: strip
everything from the first `'?'` (byte 63) onward, but only when its index
is strictly positive. -/
def removeQuery (url : Bytes) : Bytes :=
  let idx := indexByte url 63
  if idx > 0 then url.take idx.toNat else url

/-- ASCII bytes of a Lean string literal (used only for ASCII patterns). -/
def strToBytes (s : String) : Bytes := s.toList.map Char.toNat

/-- Embedding of `cstr` from `common.go`: bytes up to the first zero byte,
or the whole array when no zero byte occurs. -/
def cstr (chars : Bytes) : Bytes :=
  match firstIdxP (fun b => b == 0) chars with
  | some i => chars.take i
  | none => chars

/-- First index at which `pat` occurs as a contiguous substring of the
argument, if any. -/
def strIndexOpt (pat : Bytes) : Bytes → Option Nat
  | [] => if pat.isPrefixOf ([] : Bytes) then some 0 else none
  | b :: t => if pat.isPrefixOf (b :: t) then some 0 else (strIndexOpt pat t).map (· + 1)

/-- Embedding of Go `strings.Index`: first occurrence of `pat` in `s`, or
`-1` when absent. -/
def strIndex (s pat : Bytes) : Int :=
  match strIndexOpt pat s with
  | some i => (i : Int)
  | none => -1

/-- Embedding of the byte-wise ASCII case mapping performed by Go
`strings.ToUpper` on ASCII input.  Go takes a byte-wise fast path when the
string is pure ASCII; its Unicode path for non-ASCII input (which
re-encodes invalid UTF-8 as U+FFFD) is not modelled, so theorems that
involve case mapping carry an all-ASCII hypothesis. -/
def upperByte (b : Nat) : Nat := if 97 ≤ b ∧ b ≤ 122 then b - 32 else b

/-- Whether byte `c` occurs in `s` (Go `strings.IndexByte(s, c) >= 0`). -/
def byteContains (s : Bytes) (c : Nat) : Bool :=
  (firstIdxP (fun b => b == c) s).isSome

/-- Index of the last occurrence of byte `c` in `s` (the `last` helper of
Go `net.SplitHostPort`). -/
def lastIndexByte (s : Bytes) (c : Nat) : Option Nat :=
  match firstIdxP (fun b => b == c) s.reverse with
  | some i => some (s.length - 1 - i)
  | none => none

/-- Connection information record (`bpf_debugConnectionInfoT`): 16-byte
source and destination addresses plus 16-bit ports. -/
structure BPFConnInfo where
  S_addr : Bytes
  D_addr : Bytes
  S_port : Nat
  D_port : Nat
deriving DecidableEq

/-- PID triple carried by the kernel records. -/
structure BPFPidInfo where
  HostPid : Nat
  UserPid : Nat
  Ns : Nat
deriving DecidableEq

/-- Trace-context tuple carried by the kernel records. -/
structure BPFTpInfo where
  TraceId : Bytes
  SpanId : Bytes
  ParentId : Bytes
  Ts : Nat
  Flags : Nat
deriving DecidableEq

/-- Decoded `http_info_t` record (`bpf_debugHttpInfoT` / `BPFHTTPInfo`).
The kernel buffer `Buf` holds 160 bytes; the Go code only ever slices it
dynamically, so it is modelled as a byte list. -/
structure BPFHTTPInfo where
  Flags : Nat
  ConnInfo : BPFConnInfo
  StartMonotimeNs : Nat
  EndMonotimeNs : Nat
  Buf : Bytes
  Len : Nat
  RespLen : Nat
  Status : Nat
  Typ : Nat
  Ssl : Nat
  Pid : BPFPidInfo
  Tp : BPFTpInfo
deriving DecidableEq

/-- Modelled from the spec: the `svc` package is not under the provided
sources; only the SDK-language tag is ever set by the embedded code. -/
structure SvcID where
  SDKLanguage : Nat := 0
deriving DecidableEq

instance : Inhabited SvcID := ⟨{}⟩

/-- Modelled from the spec: `svc.InstrumentableGeneric`, the generic
SDK-language tag (its numeric value is not under the provided sources). -/
def instrumentableGeneric : Nat := 0

/-- Modelled from the spec: `request.Span`, the uniform span record
(§3 of the spec); the `request` package is not under the provided
sources.  Only the fields the embedded code assigns are modelled. -/
structure Span where
  Typ : Nat := 0
  ID : Nat := 0
  Method : Bytes := []
  Path : Bytes := []
  Peer : Bytes := []
  Host : Bytes := []
  HostPort : Int := 0
  ContentLength : Int := 0
  RequestStart : Int := 0
  Start : Int := 0
  End : Int := 0
  Status : Int := 0
  ServiceID : SvcID := {}
  TraceID : Bytes := []
  SpanID : Bytes := []
  ParentSpanID : Bytes := []
  Flags : Nat := 0
  Pid : BPFPidInfo := ⟨0, 0, 0⟩
  Statement : Bytes := []
deriving DecidableEq

instance : Inhabited Span := ⟨{}⟩

/-- The `HTTPInfo` wrapper of `httpfltr_transform.go`; the Go struct embeds
`BPFHTTPInfo`, modelled here as the field `Base`. -/
structure HTTPInfo where
  Base : BPFHTTPInfo
  Method : Bytes := []
  URL : Bytes := []
  Host : Bytes := []
  Peer : Bytes := []
  Service : SvcID := {}
deriving DecidableEq

/-- Reinterpretation of an unsigned 64-bit value as Go `int64` (the
`int64(...)` conversions applied to the monotonic timestamps). -/
def toInt64 (n : Nat) : Int :=
  let m := n % 18446744073709551616
  if m < 9223372036854775808 then (m : Int) else (m : Int) - 18446744073709551616

/-- Embedding of `httpInfoToSpan` from `httpfltr_transform.go`. -/
def httpInfoToSpan (info : HTTPInfo) : Span :=
  { Typ := info.Base.Typ
    ID := 0
    Method := info.Method
    Path := removeQuery info.URL
    Peer := info.Peer
    Host := info.Host
    HostPort := (info.Base.ConnInfo.D_port : Int)
    ContentLength := (info.Base.Len : Int)
    RequestStart := toInt64 info.Base.StartMonotimeNs
    Start := toInt64 info.Base.StartMonotimeNs
    End := toInt64 info.Base.EndMonotimeNs
    Status := (info.Base.Status : Int)
    ServiceID := info.Service
    TraceID := info.Base.Tp.TraceId
    SpanID := info.Base.Tp.SpanId
    ParentSpanID := info.Base.Tp.ParentId
    Flags := info.Base.Tp.Flags
    Pid := ⟨info.Base.Pid.HostPid, info.Base.Pid.UserPid, info.Base.Pid.Ns⟩
    Statement := [] }

/-- Position of the zero terminator of the request buffer, or the buffer
length when there is none (the `bufEnd` computation of the `url`
method). -/
def bufEndOf (buf : Bytes) : Nat :=
  (firstIdxP (fun b => b == 0) buf).getD buf.length

/-- Embedding of the `url` method of `BPFHTTPInfo`: the bytes between the
first space and the next whitespace, truncated at the zero terminator. -/
def url (buf : Bytes) : Bytes :=
  match firstIdxP (fun b => b == 32) buf with
  | none => []
  | some space =>
    let bufEnd := bufEndOf buf
    if space + 1 > bufEnd then []
    else
      let mid := (buf.drop (space + 1)).take (bufEnd - (space + 1))
      match firstIdxP (fun b => b == 32 || b == 13 || b == 10) mid with
      | none => mid
      | some nextSpace =>
        let e := nextSpace + space + 1
        let e := if e > bufEnd then bufEnd else e
        (buf.drop (space + 1)).take (e - (space + 1))

/-- Embedding of the `method` method of `BPFHTTPInfo`: the bytes before
the first space of the whole buffer. -/
def method (buf : Bytes) : Bytes :=
  match firstIdxP (fun b => b == 32) buf with
  | none => []
  | some space => buf.take space

/-- Embedding of Go `net.SplitHostPort` (standard library): splits
`host:port`, handling a bracketed IPv6 host; `none` models a non-nil
error. -/
def splitHostPort (hp : Bytes) : Option (Bytes × Bytes) :=
  match lastIndexByte hp 58 with
  | none => none
  | some i =>
    if hp.headD 0 == 91 then
      match firstIdxP (fun b => b == 93) hp with
      | none => none
      | some e =>
        if e + 1 == hp.length then none
        else if e + 1 == i then
          if byteContains (hp.drop 1) 91 then none
          else if byteContains (hp.drop (e + 1)) 93 then none
          else some ((hp.drop 1).take (e - 1), hp.drop (i + 1))
        else none
    else
      if byteContains (hp.take i) 58 then none
      else if byteContains hp 91 then none
      else if byteContains hp 93 then none
      else some (hp.take i, hp.drop (i + 1))

/-- Decimal value of a non-empty all-digit byte string, if it is one. -/
def parseDigits : Bytes → Option Nat
  | [] => none
  | [b] => if 48 ≤ b ∧ b ≤ 57 then some (b - 48) else none
  | b :: t =>
    if 48 ≤ b ∧ b ≤ 57 then
      match parseDigits t with
      | some v => some ((b - 48) * 10 ^ t.length + v)
      | none => none
    else none

/-- Embedding of Go `strconv.Atoi` (standard library) for the use in
`hostFromBuf`, where its error is discarded: a syntax error yields 0, and
out-of-range values clamp to the 64-bit bounds. -/
def atoi (s : Bytes) : Int :=
  let signed : Int × Bytes :=
    match s with
    | 45 :: rest => (-1, rest)
    | 43 :: rest => (1, rest)
    | _ => (1, s)
  match parseDigits signed.2 with
  | none => 0
  | some v =>
    let x := signed.1 * (v : Int)
    if x > 9223372036854775807 then 9223372036854775807
    else if x < -9223372036854775808 then -9223372036854775808
    else x

/-- Decimal digits of a byte value (Go `uitoa` restricted to the byte
range, as used for dotted-quad rendering). -/
def decimalBytes (n : Nat) : Bytes :=
  if n < 10 then [48 + n]
  else if n < 100 then [48 + n / 10, 48 + n % 10]
  else [48 + n / 100, 48 + n / 10 % 10, 48 + n % 10]

/-- Lower-case hexadecimal digit byte for a nibble value. -/
def hexDigit (n : Nat) : Nat := if n < 10 then 48 + n else 87 + n

/-- Lower-case hexadecimal rendering of a 16-bit group without leading
zeros (Go `appendHex`). -/
def hexGroup (v : Nat) : Bytes :=
  let d3 := v / 4096 % 16
  let d2 := v / 256 % 16
  let d1 := v / 16 % 16
  let d0 := v % 16
  if d3 ≠ 0 then [hexDigit d3, hexDigit d2, hexDigit d1, hexDigit d0]
  else if d2 ≠ 0 then [hexDigit d2, hexDigit d1, hexDigit d0]
  else if d1 ≠ 0 then [hexDigit d1, hexDigit d0]
  else [hexDigit d0]

/-- Two-digit hexadecimal rendering of one byte. -/
def hexPair (b : Nat) : Bytes := [hexDigit (b / 16 % 16), hexDigit (b % 16)]

/-- Run of leading zero groups. -/
def leadZeros : List Nat → Nat
  | [] => 0
  | g :: t => if g == 0 then leadZeros t + 1 else 0

/-- Longest (earliest on ties) run of at least two zero 16-bit groups, as
`(start, stop)` in group indices (the zero-run search of `net.IP.String`). -/
def zeroRun (gs : List Nat) : Option (Nat × Nat) :=
  (List.range gs.length).foldl
    (fun acc i =>
      let r := leadZeros (gs.drop i)
      match acc with
      | none => if 2 ≤ r then some (i, i + r) else none
      | some (s, e) => if e - s < r then some (i, i + r) else acc)
    none

/-- Dotted-quad rendering of four bytes. -/
def dottedQuad (bs : Bytes) : Bytes :=
  List.intercalate [46] (bs.map decimalBytes)

/-- Canonical IPv6 rendering of eight 16-bit groups with zero-run
compression (the IPv6 arm of `net.IP.String`). -/
def ipv6String (gs : List Nat) : Bytes :=
  match zeroRun gs with
  | none => List.intercalate [58] (gs.map hexGroup)
  | some (s, e) =>
    List.intercalate [58] ((gs.take s).map hexGroup) ++ [58, 58] ++
      List.intercalate [58] ((gs.drop e).map hexGroup)

/-- The eight 16-bit groups of a 16-byte address. -/
def groupsOf (ip : Bytes) : List Nat :=
  (List.range 8).map (fun g => ip.getD (2 * g) 0 * 256 + ip.getD (2 * g + 1) 0)

/-- Embedding of Go `net.IP.String` (standard library): dotted quad for
IPv4 and IPv4-mapped addresses, canonical compressed IPv6 otherwise. -/
def ipString (ip : Bytes) : Bytes :=
  if ip.length = 0 then strToBytes "<nil>"
  else if ip.length = 4 then dottedQuad ip
  else if ip.length = 16 ∧ (ip.take 10).all (· == 0) ∧ ip.getD 10 0 = 255 ∧ ip.getD 11 0 = 255 then
    dottedQuad (ip.drop 12)
  else if ip.length ≠ 16 then [63] ++ ip.flatMap hexPair
  else ipv6String (groupsOf ip)

/-- A 16-byte IP created by `make(net.IP, IPv6len)` followed by `copy`
from an address field. -/
def ip16 (addr : Bytes) : Bytes :=
  addr.take 16 ++ List.replicate (16 - addr.length) 0

/-- Embedding of the `hostInfo` method of `BPFHTTPInfo`: formatted
`(source, target)` endpoint strings. -/
def hostInfo (event : BPFHTTPInfo) : Bytes × Bytes :=
  (ipString (ip16 event.ConnInfo.S_addr), ipString (ip16 event.ConnInfo.D_addr))

/-- Embedding of the `hostFromBuf` method of `BPFHTTPInfo`: scan the
zero-terminated buffer for the literal `Host: `, take the value up to the
next carriage return or end of buffer, and split it as `host:port`.
Failure is `(empty, -1)`. -/
def hostFromBuf (event : BPFHTTPInfo) : Bytes × Int :=
  let buf := cstr event.Buf
  match strIndexOpt (strToBytes "Host: ") buf with
  | none => ([], -1)
  | some idx =>
    let buf2 := buf.drop (idx + 6)
    let rIdx := match firstIdxP (fun b => b == 13) buf2 with
      | some r => r
      | none => buf2.length
    match splitHostPort (buf2.take rIdx) with
    | none => ([], -1)
    | some (host, portStr) => (host, atoi portStr)

/-- Embedding of `ReadHTTPInfoIntoSpan` from `httpfltr_transform.go`,
after the binary decode: classifier outputs are attached to the record and
the span is built by `httpInfoToSpan`. -/
def readHTTPInfoLogic (event : BPFHTTPInfo) : Span :=
  let base : HTTPInfo := { Base := event }
  let result :=
    if event.ConnInfo.S_port ≠ 0 ∨ event.ConnInfo.D_port ≠ 0 then
      let st := hostInfo event
      { base with Host := st.2, Peer := st.1 }
    else
      let hp := hostFromBuf event
      if hp.2 ≥ 0 then
        { base with
          Host := hp.1
          Base := { event with ConnInfo := { event.ConnInfo with D_port := (hp.2 % 65536).toNat } } }
      else base
  let result := { result with
    URL := url event.Buf
    Method := method event.Buf
    Service := { SDKLanguage := instrumentableGeneric } }
  httpInfoToSpan result

/-- Result triple of the ring-buffer readers: the produced span, the
`ignore` flag, and whether a decode error occurred (`error != nil`). -/
structure ReadResult where
  span : Span
  ignore : Bool
  err : Bool
deriving DecidableEq

instance : Inhabited ReadResult := ⟨⟨{}, true, true⟩⟩

/-- Decoded `tcp_req_t` record (`TCPRequestInfo`), with the fields the
embedded code uses. -/
structure TCPRequestInfo where
  ConnInfo : BPFConnInfo
  StartMonotimeNs : Nat
  EndMonotimeNs : Nat
  Buf : Bytes
  Len : Nat
  Pid : BPFPidInfo
  Tp : BPFTpInfo
deriving DecidableEq

/-- The seven SQL verbs checked by `isSQL`, in the order of its loop. -/
def sqlVerbs : List Bytes :=
  [strToBytes "SELECT", strToBytes "UPDATE", strToBytes "DELETE",
   strToBytes "INSERT", strToBytes "ALTER", strToBytes "CREATE",
   strToBytes "DROP"]

/-- First index found while trying patterns in list order: the index of
the first occurrence of the first pattern that occurs at all. -/
def firstVerbIdx : List Bytes → Bytes → Option Nat
  | [], _ => none
  | q :: qs, b =>
    match strIndexOpt q b with
    | some i => some i
    | none => firstVerbIdx qs b

/-- Embedding of `isSQL` from `tcp_detect_transform.go`: uppercase the
buffer and try the seven verbs in a fixed order, returning the index of
the first occurrence of the first verb that occurs anywhere. -/
def isSQL (buf : Bytes) : Int :=
  match firstVerbIdx sqlVerbs (buf.map upperByte) with
  | some i => (i : Int)
  | none => -1

/-- Modelled from the spec: `request.EventTypeSQLClient` (the `request`
package is not under the provided sources); the SQL-client span kind. -/
def eventTypeSQLClient : Nat := 5

/-- Whitespace test for the spec-modelled SQL tokenizer. -/
def isWS (b : Nat) : Bool := b == 32 || b == 9 || b == 13 || b == 10

/-- Split a byte string into whitespace-separated tokens. -/
def splitWS : Bytes → List Bytes
  | [] => []
  | b :: t =>
    if isWS b then splitWS t
    else
      match splitWS t with
      | [] => [[b]]
      | tok :: toks =>
        match t with
        | [] => [[b]]
        | c :: _ => if isWS c then [b] :: tok :: toks else (b :: tok) :: toks

/-- Token immediately following the first token equal (case-insensitively)
to the keyword. -/
def tokenAfter (kw : Bytes) : List Bytes → Bytes
  | [] => []
  | t :: rest => if t.map upperByte == kw then rest.headD [] else tokenAfter kw rest

/-- Strip enclosing quote characters and a leading schema qualifier from a
table token. -/
def stripTable (t : Bytes) : Bytes :=
  let isQuote : Nat → Bool := fun b => b == 34 || b == 39 || b == 96
  let t1 := if isQuote (t.headD 0) then t.drop 1 else t
  let t2 := if isQuote (t1.getLastD 0) then t1.dropLast else t1
  match lastIndexByte t2 46 with
  | some i => t2.drop (i + 1)
  | none => t2

/-- Modelled from the spec: `sqlprune.SQLParseOperationAndTable` is not
under the provided sources.  Per §4.4, the operation is the leading SQL
keyword and the table is the conventional target per verb (after `FROM`
for SELECT/DELETE, after `INTO` for INSERT, the next token for UPDATE,
the second following token for ALTER/CREATE/DROP), with enclosing quotes
and schema qualifier stripped. -/
def sqlParseOperationAndTable (sql : Bytes) : Bytes × Bytes :=
  match splitWS sql with
  | [] => ([], [])
  | op :: rest =>
    let opU := op.map upperByte
    let table :=
      if opU = strToBytes "SELECT" ∨ opU = strToBytes "DELETE" then
        tokenAfter (strToBytes "FROM") rest
      else if opU = strToBytes "INSERT" then
        tokenAfter (strToBytes "INTO") rest
      else if opU = strToBytes "UPDATE" then
        rest.headD []
      else if opU = strToBytes "ALTER" ∨ opU = strToBytes "CREATE" ∨ opU = strToBytes "DROP" then
        (rest.drop 1).headD []
      else []
    (opU, stripTable table)

/-- Embedding of the `reqHostInfo` method of `TCPRequestInfo`. -/
def reqHostInfo (trace : TCPRequestInfo) : Bytes × Bytes :=
  (ipString (ip16 trace.ConnInfo.S_addr), ipString (ip16 trace.ConnInfo.D_addr))

/-- Embedding of `TCPToSQLToSpan` from `tcp_detect_transform.go`. -/
def TCPToSQLToSpan (trace : TCPRequestInfo) (s : Bytes) : Span :=
  let sql := cstr s
  let mp := sqlParseOperationAndTable sql
  let pht : Bytes × Bytes × Int :=
    if trace.ConnInfo.S_port ≠ 0 ∨ trace.ConnInfo.D_port ≠ 0 then
      let st := reqHostInfo trace
      (st.1, st.2, (trace.ConnInfo.D_port : Int))
    else ([], [], 0)
  { Typ := eventTypeSQLClient
    Method := mp.1
    Path := mp.2
    Peer := pht.1
    Host := pht.2.1
    HostPort := pht.2.2
    ContentLength := 0
    RequestStart := toInt64 trace.StartMonotimeNs
    Start := toInt64 trace.StartMonotimeNs
    End := toInt64 trace.EndMonotimeNs
    Status := 0
    TraceID := trace.Tp.TraceId
    SpanID := trace.Tp.SpanId
    ParentSpanID := trace.Tp.ParentId
    Flags := trace.Tp.Flags
    Pid := ⟨trace.Pid.HostPid, trace.Pid.UserPid, trace.Pid.Ns⟩
    Statement := sql }

/-- Embedding of `ReadTCPRequestIntoSpan` from `tcp_detect_transform.go`
after the binary decode: clamp the advertised length to the buffer
capacity, look for a SQL verb, and either build a SQL-client span or
signal that the record is ignored (with a nil error). -/
def tcpRequestLogic (event : TCPRequestInfo) : ReadResult :=
  let l := if event.Buf.length < event.Len then event.Buf.length else event.Len
  let buf := event.Buf.take l
  let sqlIndex := isSQL buf
  if sqlIndex ≥ 0 then ⟨TCPToSQLToSpan event (buf.drop sqlIndex.toNat), false, false⟩
  else ⟨{}, true, false⟩

/-- Kernel lockdown capability value (`KernelLockdown` in `common.go`). -/
inductive KernelLockdown where
  | None
  | Integrity
  | Confidentiality
  | Other
deriving DecidableEq

/-- Embedding of Go `strings.Contains`. -/
def strContains (s pat : Bytes) : Bool := (strIndexOpt pat s).isSome

/-- Embedding of `KernelLockdownMode` from `common.go`.  The file-system
interaction is made explicit: `fileExists` is whether `os.Stat` succeeds,
`openOk` whether `os.Open` succeeds, and `firstLine` the first line the
scanner yields (`none` for an empty file). -/
def KernelLockdownMode (fileExists openOk : Bool) (firstLine : Option Bytes) :
    KernelLockdown :=
  if fileExists then
    if openOk then
      match firstLine with
      | some lockdown =>
        if strContains lockdown (strToBytes "[none]") then KernelLockdown.None
        else if strContains lockdown (strToBytes "[integrity]") then KernelLockdown.Integrity
        else if strContains lockdown (strToBytes "[confidentiality]") then KernelLockdown.Confidentiality
        else KernelLockdown.Other
      | none => KernelLockdown.Integrity
    else KernelLockdown.Integrity
  else KernelLockdown.None

/-- Modelled from the spec: the repository consults `IntegrityModeOverride`
outside the provided sources (only its declaration is under `src/`); per
the spec the flag forces lockdown `Integrity` regardless of the file's
contents. -/
def effectiveKernelLockdown (override fileExists openOk : Bool)
    (firstLine : Option Bytes) : KernelLockdown :=
  if override then KernelLockdown.Integrity
  else KernelLockdownMode fileExists openOk firstLine

/-- Embedding of `SupportsContextPropagation` from `common.go`, with the
kernel version (read by `KernelVersion`, outside the provided sources)
passed as arguments and the lockdown computed through the spec-modelled
override. -/
def SupportsContextPropagation (major minor : Nat) (override fileExists openOk : Bool)
    (firstLine : Option Bytes) : Bool :=
  if major < 5 ∨ (major = 5 ∧ minor < 10) then true
  else if effectiveKernelLockdown override fileExists openOk firstLine = KernelLockdown.None then true
  else false

/-- Event-kind constants of `common.go`. -/
def EventTypeSQL : Nat := 5

/-- Event kind of kprobe-generated HTTP events. -/
def EventTypeKHTTP : Nat := 6

/-- Event kind of kprobe-generated HTTP2/gRPC events. -/
def EventTypeKHTTP2 : Nat := 7

/-- Event kind of unknown TCP payloads classified in user space. -/
def EventTypeTCP : Nat := 8

/-- Consume one byte of a record (a `binary.Read` of a `uint8`). -/
def rByte (bs : Bytes) : Option (Nat × Bytes) :=
  match bs with
  | [] => none
  | b :: t => some (b, t)

/-- Consume `n` raw bytes of a record. -/
def rChunk (n : Nat) (bs : Bytes) : Option (Bytes × Bytes) :=
  if n ≤ bs.length then some (bs.take n, bs.drop n) else none

/-- Little-endian value of a byte chunk. -/
def leVal (chunk : Bytes) : Nat :=
  chunk.foldr (fun b acc => acc * 256 + b) 0

/-- Consume a little-endian `uint16`. -/
def rU16 (bs : Bytes) : Option (Nat × Bytes) :=
  (rChunk 2 bs).map (fun p => (leVal p.1, p.2))

/-- Consume a little-endian `uint32`. -/
def rU32 (bs : Bytes) : Option (Nat × Bytes) :=
  (rChunk 4 bs).map (fun p => (leVal p.1, p.2))

/-- Consume a little-endian `uint64`. -/
def rU64 (bs : Bytes) : Option (Nat × Bytes) :=
  (rChunk 8 bs).map (fun p => (leVal p.1, p.2))

/-- Decode a `connection_info_t` (per `bpf_debugConnectionInfoT`). -/
def parseConnInfo (bs : Bytes) : Option (BPFConnInfo × Bytes) := do
  let (sa, bs) ← rChunk 16 bs
  let (da, bs) ← rChunk 16 bs
  let (sp, bs) ← rU16 bs
  let (dp, bs) ← rU16 bs
  return (⟨sa, da, sp, dp⟩, bs)

/-- Decode the PID triple of the kernel records. -/
def parsePidInfo (bs : Bytes) : Option (BPFPidInfo × Bytes) := do
  let (hp, bs) ← rU32 bs
  let (up, bs) ← rU32 bs
  let (ns, bs) ← rU32 bs
  return (⟨hp, up, ns⟩, bs)

/-- Decode the trace-context tuple (with its 7 trailing padding bytes, per
`bpf_debugHttpInfoT`). -/
def parseTpInfo (bs : Bytes) : Option (BPFTpInfo × Bytes) := do
  let (tid, bs) ← rChunk 16 bs
  let (sid, bs) ← rChunk 8 bs
  let (pid, bs) ← rChunk 8 bs
  let (ts, bs) ← rU64 bs
  let (fl, bs) ← rByte bs
  let (_, bs) ← rChunk 7 bs
  return (⟨tid, sid, pid, ts, fl⟩, bs)

/-- Decode an `http_info_t` record from offset 0, following the field
layout of `bpf_debugHttpInfoT` (including its two padding runs). -/
def parseHTTPInfo (bs : Bytes) : Option BPFHTTPInfo := do
  let (flags, bs) ← rU64 bs
  let (ci, bs) ← parseConnInfo bs
  let (_, bs) ← rChunk 4 bs
  let (st, bs) ← rU64 bs
  let (en, bs) ← rU64 bs
  let (buf, bs) ← rChunk 160 bs
  let (len, bs) ← rU32 bs
  let (rl, bs) ← rU32 bs
  let (status, bs) ← rU16 bs
  let (ty, bs) ← rByte bs
  let (ssl, bs) ← rByte bs
  let (pid, bs) ← parsePidInfo bs
  let (tp, _) ← parseTpInfo bs
  return ⟨flags, ci, st, en, buf, len, rl, status, ty, ssl, pid, tp⟩

/-- Modelled from the spec: the buffer capacity of the `tcp_req_t` and
`sql_request_trace` layouts (their bpf2go-generated Go declarations are
not under the provided sources); the capacity constant is a modelling
choice and no theorem depends on it. -/
def rawBufCap : Nat := 256

/-- Modelled from the spec: the `tcp_req_t` layout is not under the
provided sources; per §2 the kind is the record's first byte and per §3
the record carries `{conn, start_ns, end_ns, buf, len, pid, tp}`. -/
def parseTCPRequestInfo (bs : Bytes) : Option TCPRequestInfo := do
  let (_, bs) ← rByte bs
  let (ci, bs) ← parseConnInfo bs
  let (st, bs) ← rU64 bs
  let (en, bs) ← rU64 bs
  let (buf, bs) ← rChunk rawBufCap bs
  let (len, bs) ← rU32 bs
  let (pid, bs) ← parsePidInfo bs
  let (tp, _) ← parseTpInfo bs
  return ⟨ci, st, en, buf, len, pid, tp⟩

/-- Decoded `sql_request_trace` record, with the shared field set of §3. -/
structure SQLRequestTrace where
  ConnInfo : BPFConnInfo
  StartMonotimeNs : Nat
  EndMonotimeNs : Nat
  Buf : Bytes
  Len : Nat
  Pid : BPFPidInfo
  Tp : BPFTpInfo
deriving DecidableEq

/-- Modelled from the spec: the `sql_request_trace` layout is not under
the provided sources; same shape as the TCP record. -/
def parseSQLRequestTrace (bs : Bytes) : Option SQLRequestTrace := do
  let (_, bs) ← rByte bs
  let (ci, bs) ← parseConnInfo bs
  let (st, bs) ← rU64 bs
  let (en, bs) ← rU64 bs
  let (buf, bs) ← rChunk rawBufCap bs
  let (len, bs) ← rU32 bs
  let (pid, bs) ← parsePidInfo bs
  let (tp, _) ← parseTpInfo bs
  return ⟨ci, st, en, buf, len, pid, tp⟩

/-- Modelled from the spec: `SQLRequestTraceToSpan` is not under the
provided sources; per §4.4 it derives operation and table from the
statement buffer and emits a SQL-client span. -/
def SQLRequestTraceToSpan (event : SQLRequestTrace) : Span :=
  let sql := cstr event.Buf
  let mp := sqlParseOperationAndTable sql
  { Typ := eventTypeSQLClient
    Method := mp.1
    Path := mp.2
    ContentLength := 0
    RequestStart := toInt64 event.StartMonotimeNs
    Start := toInt64 event.StartMonotimeNs
    End := toInt64 event.EndMonotimeNs
    Status := 0
    TraceID := event.Tp.TraceId
    SpanID := event.Tp.SpanId
    ParentSpanID := event.Tp.ParentId
    Flags := event.Tp.Flags
    Pid := ⟨event.Pid.HostPid, event.Pid.UserPid, event.Pid.Ns⟩
    Statement := sql }

/-- Decoded HTTP/2 record, with the shared field set of §3. -/
structure HTTP2RequestTrace where
  ConnInfo : BPFConnInfo
  StartMonotimeNs : Nat
  EndMonotimeNs : Nat
  Buf : Bytes
  Len : Nat
  Pid : BPFPidInfo
  Tp : BPFTpInfo
deriving DecidableEq

/-- Modelled from the spec: the `http2_grpc_request_t` layout is not under
the provided sources; same shared shape. -/
def parseHTTP2RequestTrace (bs : Bytes) : Option HTTP2RequestTrace := do
  let (_, bs) ← rByte bs
  let (ci, bs) ← parseConnInfo bs
  let (st, bs) ← rU64 bs
  let (en, bs) ← rU64 bs
  let (buf, bs) ← rChunk rawBufCap bs
  let (len, bs) ← rU32 bs
  let (pid, bs) ← parsePidInfo bs
  let (tp, _) ← parseTpInfo bs
  return ⟨ci, st, en, buf, len, pid, tp⟩

/-- Modelled from the spec: `ReadHTTP2InfoIntoSpan` is not under the
provided sources; per §4.5 it decodes the HTTP/2 record from offset 0 and
emits a span whose timing and identity fields come from the record. -/
def ReadHTTP2InfoIntoSpan (bs : Bytes) : ReadResult :=
  match parseHTTP2RequestTrace bs with
  | none => ⟨{}, true, true⟩
  | some event =>
    ⟨{ RequestStart := toInt64 event.StartMonotimeNs
       Start := toInt64 event.StartMonotimeNs
       End := toInt64 event.EndMonotimeNs
       TraceID := event.Tp.TraceId
       SpanID := event.Tp.SpanId
       ParentSpanID := event.Tp.ParentId
       Flags := event.Tp.Flags
       Pid := ⟨event.Pid.HostPid, event.Pid.UserPid, event.Pid.Ns⟩ }, false, false⟩

/-- Legacy `http_request_trace` record.  Modelled from the spec: its
bpf2go-generated layout is not under the provided sources and §3 does not
enumerate it; modelled with the shared field set plus the leading kind
byte. -/
structure HTTPRequestTrace where
  Typ : Nat
  ConnInfo : BPFConnInfo
  StartMonotimeNs : Nat
  EndMonotimeNs : Nat
  Buf : Bytes
  Len : Nat
  Pid : BPFPidInfo
  Tp : BPFTpInfo
deriving DecidableEq

/-- Modelled from the spec: decode of the legacy HTTP request-trace layout
from offset 0. -/
def parseHTTPRequestTrace (bs : Bytes) : Option HTTPRequestTrace := do
  let (ty, bs) ← rByte bs
  let (ci, bs) ← parseConnInfo bs
  let (st, bs) ← rU64 bs
  let (en, bs) ← rU64 bs
  let (buf, bs) ← rChunk rawBufCap bs
  let (len, bs) ← rU32 bs
  let (pid, bs) ← parsePidInfo bs
  let (tp, _) ← parseTpInfo bs
  return ⟨ty, ci, st, en, buf, len, pid, tp⟩

/-- Modelled from the spec: `HTTPRequestTraceToSpan` is not under the
provided sources; per §4.3 it classifies the legacy HTTP record and per
§4.7 maps it mechanically onto a span. -/
def HTTPRequestTraceToSpan (event : HTTPRequestTrace) : Span :=
  { Typ := event.Typ
    Method := method event.Buf
    Path := removeQuery (url event.Buf)
    RequestStart := toInt64 event.StartMonotimeNs
    Start := toInt64 event.StartMonotimeNs
    End := toInt64 event.EndMonotimeNs
    TraceID := event.Tp.TraceId
    SpanID := event.Tp.SpanId
    ParentSpanID := event.Tp.ParentId
    Flags := event.Tp.Flags
    Pid := ⟨event.Pid.HostPid, event.Pid.UserPid, event.Pid.Ns⟩ }

/-- Embedding of `ReadSQLRequestTraceAsSpan` from `common.go`: decode the
SQL record from offset 0 of the raw sample and build its span. -/
def ReadSQLRequestTraceAsSpan (bs : Bytes) : ReadResult :=
  match parseSQLRequestTrace bs with
  | none => ⟨{}, true, true⟩
  | some event => ⟨SQLRequestTraceToSpan event, false, false⟩

/-- Embedding of `ReadHTTPInfoIntoSpan` from `httpfltr_transform.go` at
the byte level: decode the `http_info_t` record from offset 0 of the raw
sample, then run the classification logic. -/
def ReadHTTPInfoIntoSpan (bs : Bytes) : ReadResult :=
  match parseHTTPInfo bs with
  | none => ⟨{}, true, true⟩
  | some event => ⟨readHTTPInfoLogic event, false, false⟩

/-- Embedding of `ReadTCPRequestIntoSpan` from `tcp_detect_transform.go`
at the byte level. -/
def ReadTCPRequestIntoSpan (bs : Bytes) : ReadResult :=
  match parseTCPRequestInfo bs with
  | none => ⟨{}, true, true⟩
  | some event => tcpRequestLogic event

/-- Embedding of `ReadHTTPRequestTraceAsSpan` from `common.go`: read the
event-kind byte at offset 0 of the raw sample and dispatch the full decode
(again from offset 0) on it, falling back to the legacy HTTP trace
layout. -/
def ReadHTTPRequestTraceAsSpan (bs : Bytes) : ReadResult :=
  match rByte bs with
  | none => ⟨{}, true, true⟩
  | some (eventType, _) =>
    if eventType = EventTypeSQL then ReadSQLRequestTraceAsSpan bs
    else if eventType = EventTypeKHTTP then ReadHTTPInfoIntoSpan bs
    else if eventType = EventTypeKHTTP2 then ReadHTTP2InfoIntoSpan bs
    else if eventType = EventTypeTCP then ReadTCPRequestIntoSpan bs
    else
      match parseHTTPRequestTrace bs with
      | none => ⟨{}, true, true⟩
      | some event => ⟨HTTPRequestTraceToSpan event, false, false⟩

/-- Pad a byte string to the 160-byte capacity of the HTTP buffer. -/
def pad160 (b : Bytes) : Bytes := b ++ List.replicate (160 - b.length) 0

/-- All-zero connection info (the asynchronous-TLS case). -/
def zeroConn : BPFConnInfo := ⟨List.replicate 16 0, List.replicate 16 0, 0, 0⟩

/-- All-zero trace context. -/
def zeroTp : BPFTpInfo :=
  ⟨List.replicate 16 0, List.replicate 8 0, List.replicate 8 0, 0, 0⟩

/-- Concrete HTTP record whose start timestamp exceeds its end timestamp. -/
def evStartAfterEnd : BPFHTTPInfo :=
  ⟨0, zeroConn, 2, 1, List.replicate 160 0, 0, 0, 200, 1, 0, ⟨1, 2, 3⟩, zeroTp⟩

/-- Concrete TCP record whose start timestamp exceeds its end timestamp. -/
def tcpStartAfterEnd : TCPRequestInfo :=
  ⟨zeroConn, 2, 1, List.replicate 256 0, 0, ⟨1, 2, 3⟩, zeroTp⟩

/-- Concrete HTTP record with zero ports and no parseable Host header. -/
def evNoHost : BPFHTTPInfo :=
  ⟨0, zeroConn, 10, 20, pad160 (strToBytes "GET / HTTP/1.1"), 14, 0, 200, 1, 0,
   ⟨1, 2, 3⟩, zeroTp⟩

/-- Concrete HTTP record with non-zero connection ports. -/
def evWithConn : BPFHTTPInfo :=
  ⟨0, ⟨[0,0,0,0,0,0,0,0,0,0,255,255,10,0,0,1], [0,0,0,0,0,0,0,0,0,0,255,255,10,0,0,2], 33112, 443⟩,
   10, 20, pad160 (strToBytes "POST /x HTTP/1.1"), 16, 0, 201, 1, 0, ⟨1, 2, 3⟩, zeroTp⟩

/-- Concrete HTTP record whose method bytes include an ASCII control
character (a space occurring only after a control byte and before the zero
terminator). -/
def evCtrlMethod : BPFHTTPInfo :=
  ⟨0, zeroConn, 10, 20, [65, 1, 32, 66] ++ List.replicate 156 0, 4, 0, 0, 1, 0,
   ⟨1, 2, 3⟩, zeroTp⟩

/-- Concrete well-formed HTTP GET record. -/
def evPlainGet : BPFHTTPInfo :=
  ⟨0, zeroConn, 10, 20, pad160 (strToBytes "GET /x HTTP/1.1"), 15, 0, 200, 1, 0,
   ⟨1, 2, 3⟩, zeroTp⟩

/-- Concrete TCP record carrying a SQL SELECT statement. -/
def tcpSelect : TCPRequestInfo :=
  ⟨zeroConn, 1, 2,
   strToBytes "SELECT id FROM users" ++ List.replicate 236 0, 20, ⟨1, 2, 3⟩, zeroTp⟩

/-- Concrete TCP record with an unrecognized payload. -/
def tcpJunk : TCPRequestInfo :=
  ⟨zeroConn, 1, 2, strToBytes "BINARYJUNK" ++ List.replicate 246 0, 10,
   ⟨1, 2, 3⟩, zeroTp⟩

theorem firstIdxP_none_mem {p : Nat → Bool} {l : Bytes}
    (h : firstIdxP p l = none) : ∀ x ∈ l, p x = false := by
  induction l with
  | nil => intro x hx; cases hx
  | cons b t ih =>
    intro x hx
    unfold firstIdxP at h
    by_cases hb : p b
    · simp [hb] at h
    · simp [hb, Option.map_eq_none'] at h
      rcases List.mem_cons.mp hx with hx1 | hx1
      · subst hx1; exact (Bool.not_eq_true (p x)).mp hb
      · exact ih h x hx1

theorem firstIdxP_take {p : Nat → Bool} {l : Bytes} {i : Nat}
    (h : firstIdxP p l = some i) : firstIdxP p (l.take i) = none := by
  induction l generalizing i with
  | nil => simp [firstIdxP] at h
  | cons b t ih =>
    unfold firstIdxP at h
    by_cases hb : p b
    · simp [hb] at h
      subst h
      simp
      rfl
    · simp [hb] at h
      rcases h with ⟨j, hj, hji⟩
      subst hji
      simp [firstIdxP, hb, Option.map_eq_none']
      exact ih hj

theorem removeQuery_no_query {u : Bytes}
    (h : firstIdxP (fun b => b == 63) u = none) : removeQuery u = u := by
  unfold removeQuery indexByte
  rw [h]
  norm_num

/-- Helper fact: `removeQuery` of a string whose first `'?'` sits at a
strictly positive index `i` keeps exactly the first `i` bytes. -/
theorem removeQuery_pos {u : Bytes} {i : Nat}
    (h : firstIdxP (fun b => b == 63) u = some i) (hi : 0 < i) :
    removeQuery u = u.take i := by
  unfold removeQuery indexByte
  rw [h]
  simp [hi]

theorem removeQuery_zero {u : Bytes}
    (h : firstIdxP (fun b => b == 63) u = some 0) : removeQuery u = u := by
  unfold removeQuery indexByte
  rw [h]
  norm_num

theorem mem_take_of_le {l : Bytes} {j i : Nat} (hji : j ≤ i) {x : Nat}
    (hx : x ∈ l.take j) : x ∈ l.take i := by
  have h : l.take j = (l.take i).take j := by
    rw [List.take_take, Nat.min_eq_left hji]
  rw [h] at hx
  exact List.take_subset _ _ hx

theorem pred_false_of_mem_take {p : Nat → Bool} {l : Bytes} {i : Nat}
    (h : firstIdxP p l = some i) {j : Nat} (hj : j ≤ i) :
    ∀ x ∈ l.take j, p x = false := by
  intro x hx
  exact firstIdxP_none_mem (firstIdxP_take h) x (mem_take_of_le hj hx)

theorem isPrefixOf_true_iff {l1 l2 : Bytes} : l1.isPrefixOf l2 = true ↔ l1 <+: l2 :=
  List.isPrefixOf_iff_prefix

theorem pfx_nil_eq {pat : Bytes} (h : pat <+: ([] : Bytes)) : pat = [] := by
  rcases h with ⟨t, ht⟩
  exact (List.append_eq_nil.mp ht).1

theorem eq_take_of_pfx {l1 l2 : Bytes} (h : l1 <+: l2) : l1 = l2.take l1.length :=
  List.prefix_iff_eq_take.mp h

theorem strIndexOpt_none_iff {pat s : Bytes} :
    strIndexOpt pat s = none ↔ ¬ pat <:+: s := by
  induction s with
  | nil =>
    unfold strIndexOpt
    by_cases hp : pat.isPrefixOf ([] : Bytes)
    · have h0 : pat = [] := pfx_nil_eq (isPrefixOf_true_iff.mp hp)
      subst h0
      simp
    · have h0 : pat ≠ [] := by
        intro h
        subst h
        simp [List.isPrefixOf] at hp
      simp [hp, List.infix_nil, h0]
  | cons b t ih =>
    unfold strIndexOpt
    by_cases hp : pat.isPrefixOf (b :: t)
    · simp [hp]
      exact (isPrefixOf_true_iff.mp hp).isInfix
    · simp [hp, Option.map_eq_none']
      rw [ih, List.infix_cons_iff]
      constructor
      · intro hn h2
        rcases h2 with h2 | h2
        · exact hp (isPrefixOf_true_iff.mpr h2)
        · exact hn h2
      · intro hn h2
        exact hn (Or.inr h2)

theorem strIndexOpt_isSome_iff {pat s : Bytes} :
    (strIndexOpt pat s).isSome ↔ pat <:+: s := by
  cases h : strIndexOpt pat s with
  | none => simp [strIndexOpt_none_iff.mp h]
  | some i =>
    simp
    by_contra hni
    rw [strIndexOpt_none_iff.mpr hni] at h
    cases h

theorem strIndexOpt_occurs_at {pat s : Bytes} {i : Nat}
    (h : strIndexOpt pat s = some i) : (s.drop i).take pat.length = pat := by
  induction s generalizing i with
  | nil =>
    unfold strIndexOpt at h
    by_cases hp : pat.isPrefixOf ([] : Bytes)
    · simp [hp] at h
      subst h
      have := isPrefixOf_true_iff.mp hp
      simp at this
      simp [this]
    · simp [hp] at h
  | cons b t ih =>
    unfold strIndexOpt at h
    by_cases hp : pat.isPrefixOf (b :: t)
    · simp [hp] at h
      subst h
      simp
      exact (eq_take_of_pfx (isPrefixOf_true_iff.mp hp)).symm
    · simp [hp] at h
      rcases h with ⟨j, hj, hji⟩
      subst hji
      simpa using ih hj

theorem firstVerbIdx_none_iff {qs : List Bytes} {b : Bytes} :
    firstVerbIdx qs b = none ↔ ∀ q ∈ qs, ¬ q <:+: b := by
  induction qs with
  | nil => simp [firstVerbIdx]
  | cons q qs ih =>
    unfold firstVerbIdx
    cases hq : strIndexOpt q b with
    | some i =>
      constructor
      · intro h
        cases h
      · intro h
        exact absurd (strIndexOpt_isSome_iff.mp (by simp [hq]))
          (h q (List.mem_cons_self q qs))
    | none =>
      rw [ih]
      constructor
      · intro h
        intro q1 hq1
        rcases List.mem_cons.mp hq1 with h1 | h1
        · subst h1
          exact strIndexOpt_none_iff.mp hq
        · exact h q1 h1
      · intro h q1 hq1
        exact h q1 (List.mem_cons_of_mem _ hq1)

theorem firstVerbIdx_some {qs : List Bytes} {b : Bytes} {i : Nat}
    (h : firstVerbIdx qs b = some i) :
    ∃ qs1 q qs2, qs = qs1 ++ q :: qs2 ∧
      (∀ q1 ∈ qs1, ¬ q1 <:+: b) ∧ strIndexOpt q b = some i := by
  induction qs with
  | nil => simp [firstVerbIdx] at h
  | cons q qs ih =>
    unfold firstVerbIdx at h
    cases hq : strIndexOpt q b with
    | some j =>
      rw [hq] at h
      refine ⟨[], q, qs, by simp, by simp, ?_⟩
      rw [hq]
      exact h
    | none =>
      rw [hq] at h
      rcases ih h with ⟨qs1, q2, qs2, hqs, hnone, hidx⟩
      refine ⟨q :: qs1, q2, qs2, by simp [hqs], ?_, hidx⟩
      intro q1 hq1
      rcases List.mem_cons.mp hq1 with h1 | h1
      · subst h1
        exact strIndexOpt_none_iff.mp hq
      · exact hnone q1 h1

theorem firstIdxP_some_lt {p : Nat → Bool} {l : Bytes} {i : Nat}
    (h : firstIdxP p l = some i) : i < l.length := by
  induction l generalizing i with
  | nil => simp [firstIdxP] at h
  | cons b t ih =>
    unfold firstIdxP at h
    by_cases hb : p b
    · simp [hb] at h
      subst h
      simp
    · simp [hb] at h
      rcases h with ⟨j, hj, hji⟩
      subst hji
      have := ih hj
      simp
      omega

theorem removeQuery_subset {u : Bytes} {x : Nat} (hx : x ∈ removeQuery u) : x ∈ u := by
  simp only [removeQuery] at hx
  split at hx
  · exact List.take_subset _ _ hx
  · exact hx

theorem method_no_space {buf : Bytes} : ∀ x ∈ method buf, x ≠ 32 := by
  intro x hx
  unfold method at hx
  cases h : firstIdxP (fun b => b == 32) buf with
  | none => rw [h] at hx; cases hx
  | some space =>
    rw [h] at hx
    have := pred_false_of_mem_take h (Nat.le_refl space) x hx
    simpa using this

theorem bufEndOf_zero_free (buf : Bytes) : ∀ x ∈ buf.take (bufEndOf buf), x ≠ 0 := by
  intro x hx
  unfold bufEndOf at hx
  revert hx
  cases h0 : firstIdxP (fun b => b == 0) buf with
  | some z =>
    intro hx
    rw [Option.getD_some] at hx
    have := pred_false_of_mem_take h0 (Nat.le_refl z) x hx
    simpa using this
  | none =>
    intro hx
    have := firstIdxP_none_mem h0 x (List.take_subset _ _ hx)
    simpa using this

theorem url_bytes {buf : Bytes} : ∀ x ∈ url buf, x ≠ 0 ∧ x ≠ 32 ∧ x ≠ 13 ∧ x ≠ 10 := by
  intro x hx
  have hzero := bufEndOf_zero_free buf
  unfold url at hx
  revert hx
  cases h1 : firstIdxP (fun b => b == 32) buf with
  | none => intro hx; cases hx
  | some space =>
    intro hx
    simp only [] at hx
    revert hzero hx
    generalize bufEndOf buf = bufEnd
    intro hzero hx
    split at hx
    · cases hx
    · next hgt =>
      have hle : space + 1 ≤ bufEnd := Nat.le_of_not_lt hgt
      have hmid_eq : (buf.drop (space + 1)).take (bufEnd - (space + 1))
          = (buf.take bufEnd).drop (space + 1) := by
        rw [List.take_drop]
        congr 2
        omega
      have hmid0 : ∀ y ∈ (buf.drop (space + 1)).take (bufEnd - (space + 1)), y ≠ 0 := by
        intro y hy
        rw [hmid_eq] at hy
        exact hzero y (List.drop_subset _ _ hy)
      split at hx
      · next h2 =>
        refine ⟨hmid0 x hx, ?_⟩
        have := firstIdxP_none_mem h2 x hx
        simp at this
        exact ⟨this.1.1, this.1.2, this.2⟩
      · next nextSpace h2 =>
        have h3 := firstIdxP_some_lt h2
        have hlen : ((buf.drop (space + 1)).take (bufEnd - (space + 1))).length
            ≤ bufEnd - (space + 1) := by simp
        have hk : ∀ k : Nat, k ≤ nextSpace → k ≤ bufEnd - (space + 1) →
            x ∈ (buf.drop (space + 1)).take k →
            x ≠ 0 ∧ x ≠ 32 ∧ x ≠ 13 ∧ x ≠ 10 := by
          intro k hkn hk2 hxk
          have hxmid : x ∈ ((buf.drop (space + 1)).take (bufEnd - (space + 1))).take k := by
            rw [List.take_take, Nat.min_eq_left hk2]
            exact hxk
          refine ⟨hmid0 x (List.take_subset _ _ hxmid), ?_⟩
          have hxns := mem_take_of_le hkn hxmid
          have := pred_false_of_mem_take h2 (Nat.le_refl nextSpace) x hxns
          simp at this
          exact ⟨this.1.1, this.1.2, this.2⟩
        split at hx
        · next hc => exact hk (bufEnd - (space + 1)) (by omega) (Nat.le_refl _) hx
        · next hc => exact hk (nextSpace + space + 1 - (space + 1)) (by omega) (by omega) hx

/-- C9: `removeQuery` is idempotent. -/
theorem removeQuery_idempotent (u : Bytes) :
    removeQuery (removeQuery u) = removeQuery u := by
  cases h : firstIdxP (fun b => b == 63) u with
  | none =>
    rw [removeQuery_no_query h, removeQuery_no_query h]
  | some i =>
    by_cases hi : 0 < i
    · rw [removeQuery_pos h hi]
      exact removeQuery_no_query (firstIdxP_take h)
    · have h0 : i = 0 := Nat.eq_zero_of_not_pos hi
      subst h0
      rw [removeQuery_zero h, removeQuery_zero h]

/-- C1 counterexample: the span builders perform no start/end ordering
check, so a record whose start timestamp exceeds its end timestamp yields
a span with `Start > End` from both `httpInfoToSpan` and
`TCPToSQLToSpan`, contradicting the claim that such records are
discarded. -/
theorem c1_counterexample :
    (httpInfoToSpan { Base := evStartAfterEnd }).End
        < (httpInfoToSpan { Base := evStartAfterEnd }).Start ∧
    (TCPToSQLToSpan tcpStartAfterEnd []).End
        < (TCPToSQLToSpan tcpStartAfterEnd []).Start := by
  decide

/-- C1 (amended): `httpInfoToSpan` and `TCPToSQLToSpan` copy the start and
end timestamps verbatim (as `int64` reinterpretations) with no discard, so
a record with `start_ns > end_ns` (within `int64` range) produces a span
with `Start > End`. -/
theorem c1_timestamps_copied_verbatim :
    (∀ info : HTTPInfo,
      (httpInfoToSpan info).Start = toInt64 info.Base.StartMonotimeNs ∧
      (httpInfoToSpan info).End = toInt64 info.Base.EndMonotimeNs) ∧
    (∀ (trace : TCPRequestInfo) (s : Bytes),
      (TCPToSQLToSpan trace s).Start = toInt64 trace.StartMonotimeNs ∧
      (TCPToSQLToSpan trace s).End = toInt64 trace.EndMonotimeNs) ∧
    (∀ info : HTTPInfo,
      info.Base.StartMonotimeNs < 9223372036854775808 →
      info.Base.EndMonotimeNs < info.Base.StartMonotimeNs →
      (httpInfoToSpan info).End < (httpInfoToSpan info).Start) := by
  refine ⟨fun info => ⟨rfl, rfl⟩, fun trace s => ⟨rfl, rfl⟩, fun info hs he => ?_⟩
  have h1 : (httpInfoToSpan info).Start = (info.Base.StartMonotimeNs : Int) := by
    show toInt64 _ = _
    unfold toInt64
    rw [Nat.mod_eq_of_lt (by omega)]
    rw [if_pos hs]
  have h2 : (httpInfoToSpan info).End = (info.Base.EndMonotimeNs : Int) := by
    show toInt64 _ = _
    unfold toInt64
    rw [Nat.mod_eq_of_lt (by omega)]
    rw [if_pos (by omega)]
  rw [h1, h2]
  exact_mod_cast he

/-- C1 witness: the amended theorem applied to the concrete record with
`start_ns = 2 > end_ns = 1`. -/
theorem c1_timestamps_copied_verbatim_witness :
    (httpInfoToSpan { Base := evStartAfterEnd }).End
        < (httpInfoToSpan { Base := evStartAfterEnd }).Start :=
  c1_timestamps_copied_verbatim.2.2 { Base := evStartAfterEnd } (by decide) (by decide)

/-- C3 counterexample: with both ports zero and a buffer whose Host parse
fails, the emitted span's `HostPort` is 0, not the −1 the claim states. -/
theorem c3_counterexample :
    evNoHost.ConnInfo.S_port = 0 ∧ evNoHost.ConnInfo.D_port = 0 ∧
    (hostFromBuf evNoHost).2 = -1 ∧
    (readHTTPInfoLogic evNoHost).Host = [] ∧
    (readHTTPInfoLogic evNoHost).HostPort = 0 ∧
    ¬((readHTTPInfoLogic evNoHost).HostPort = -1) := by
  decide

/-- C3 (amended): with a non-zero port the span's host/peer are the
formatted destination/source addresses and `host_port` is `dst_port`;
with both ports zero the `Host:` header parse decides: on failure the host
stays empty and `host_port` stays 0 (the parser's −1 sentinel is not
propagated), on success the host and (low 16 bits of the) parsed port are
installed. -/
theorem c3_host_resolution (event : BPFHTTPInfo) :
    (event.ConnInfo.S_port ≠ 0 ∨ event.ConnInfo.D_port ≠ 0 →
      (readHTTPInfoLogic event).Host = ipString (ip16 event.ConnInfo.D_addr) ∧
      (readHTTPInfoLogic event).Peer = ipString (ip16 event.ConnInfo.S_addr) ∧
      (readHTTPInfoLogic event).HostPort = (event.ConnInfo.D_port : Int)) ∧
    (event.ConnInfo.S_port = 0 → event.ConnInfo.D_port = 0 →
      ((hostFromBuf event).2 < 0 →
        (readHTTPInfoLogic event).Host = [] ∧
        (readHTTPInfoLogic event).HostPort = 0) ∧
      (0 ≤ (hostFromBuf event).2 →
        (readHTTPInfoLogic event).Host = (hostFromBuf event).1 ∧
        (readHTTPInfoLogic event).HostPort = (((hostFromBuf event).2 % 65536).toNat : Int))) := by
  constructor
  · intro h
    simp only [readHTTPInfoLogic, httpInfoToSpan, hostInfo]
    rw [if_pos h]
    exact ⟨rfl, rfl, rfl⟩
  · intro hs hd
    have hcond : ¬(event.ConnInfo.S_port ≠ 0 ∨ event.ConnInfo.D_port ≠ 0) := by
      simp [hs, hd]
    constructor
    · intro hf
      simp only [readHTTPInfoLogic, httpInfoToSpan]
      rw [if_neg hcond, if_neg (by omega : ¬(hostFromBuf event).2 ≥ 0)]
      refine ⟨rfl, ?_⟩
      simp [hd]
    · intro hf
      simp only [readHTTPInfoLogic, httpInfoToSpan]
      rw [if_neg hcond, if_pos (by omega : (hostFromBuf event).2 ≥ 0)]
      exact ⟨rfl, rfl⟩

/-- C3 witness: the amended theorem applied to a record with a non-zero
destination port and to the failing-parse record. -/
theorem c3_host_resolution_witness :
    ((readHTTPInfoLogic evWithConn).Host = ipString (ip16 evWithConn.ConnInfo.D_addr) ∧
      (readHTTPInfoLogic evWithConn).HostPort = (evWithConn.ConnInfo.D_port : Int)) ∧
    ((readHTTPInfoLogic evNoHost).Host = [] ∧
      (readHTTPInfoLogic evNoHost).HostPort = 0) :=
  ⟨⟨((c3_host_resolution evWithConn).1 (by decide)).1,
    ((c3_host_resolution evWithConn).1 (by decide)).2.2⟩,
   ((c3_host_resolution evNoHost).2 (by decide) (by decide)).1 (by decide)⟩

/-- C4 counterexample: a URL whose first byte is `'?'` is returned
unchanged by `removeQuery`, not truncated to the prefix strictly before
the `'?'`. -/
theorem c4_counterexample :
    indexByte [63, 97] 63 = 0 ∧ removeQuery [63, 97] = [63, 97] ∧
    removeQuery [63, 97] ≠ List.take 0 [63, 97] := by
  decide

/-- C4 (amended): the span's path is the `url` slice of the buffer with
the query removed, where `removeQuery` strips from the first `'?'` only
when that `'?'` sits at a strictly positive index; a URL beginning with
`'?'` is kept whole. -/
theorem c4_path_query_removal :
    (∀ event : BPFHTTPInfo,
      (readHTTPInfoLogic event).Path = removeQuery (url event.Buf)) ∧
    (∀ (u : Bytes) (i : Nat), firstIdxP (fun b => b == 63) u = some i →
      (0 < i → removeQuery u = u.take i) ∧ (i = 0 → removeQuery u = u)) := by
  refine ⟨fun event => rfl, fun u i h => ⟨fun hi => removeQuery_pos h hi, fun hi => ?_⟩⟩
  subst hi
  exact removeQuery_zero h

/-- C4 witness: the amended theorem applied to the byte string
`a?b`, whose query part is stripped. -/
theorem c4_path_query_removal_witness : removeQuery [97, 63, 98] = [97] := by
  have h := (c4_path_query_removal.2 [97, 63, 98] 1 (by decide)).1 (by decide)
  rw [h]
  decide

/-- C5 counterexample: a 160-byte buffer whose first space occurs after a
control byte produces a span whose method contains the ASCII control
character 0x01. -/
theorem c5_counterexample :
    (readHTTPInfoLogic evCtrlMethod).Method = [65, 1] ∧
    (1 : Nat) ∈ (readHTTPInfoLogic evCtrlMethod).Method ∧ (1 : Nat) < 32 := by
  decide

/-- C5 (amended): for every decoded HTTP record, the span's method
contains no space byte, and its path contains no zero, space, carriage
return, or line feed byte; other ASCII control characters can occur in
both. -/
theorem c5_method_path_delimiter_free (event : BPFHTTPInfo) :
    (∀ b ∈ (readHTTPInfoLogic event).Method, b ≠ 32) ∧
    (∀ b ∈ (readHTTPInfoLogic event).Path, b ≠ 0 ∧ b ≠ 32 ∧ b ≠ 13 ∧ b ≠ 10) := by
  constructor
  · intro b hb
    have hm : (readHTTPInfoLogic event).Method = method event.Buf := rfl
    rw [hm] at hb
    exact method_no_space b hb
  · intro b hb
    have hp : (readHTTPInfoLogic event).Path = removeQuery (url event.Buf) := rfl
    rw [hp] at hb
    exact url_bytes b (removeQuery_subset hb)

/-- C5 witness: the amended theorem applied to a well-formed GET record
and the byte `G` of its method. -/
theorem c5_method_path_delimiter_free_witness :
    (71 : Nat) ∈ (readHTTPInfoLogic evPlainGet).Method ∧ (71 : Nat) ≠ 32 :=
  ⟨by decide, (c5_method_path_delimiter_free evPlainGet).1 71 (by decide)⟩

theorem isSQL_neg_iff (buf : Bytes) :
    isSQL buf = -1 ↔ firstVerbIdx sqlVerbs (buf.map upperByte) = none := by
  unfold isSQL
  cases h : firstVerbIdx sqlVerbs (buf.map upperByte) with
  | none => exact ⟨fun _ => rfl, fun _ => rfl⟩
  | some i =>
    constructor
    · intro h1
      have h2 : (i : Int) = -1 := h1
      exact absurd h2 (by omega)
    · intro h1
      exact Option.noConfusion h1

theorem isSQL_some {buf : Bytes} {i : Nat} (h : isSQL buf = (i : Int)) :
    firstVerbIdx sqlVerbs (buf.map upperByte) = some i := by
  unfold isSQL at h
  cases hf : firstVerbIdx sqlVerbs (buf.map upperByte) with
  | none =>
    rw [hf] at h
    have h2 : (-1 : Int) = (i : Int) := h
    exact absurd h2 (by omega)
  | some j =>
    rw [hf] at h
    have h2 : (j : Int) = (i : Int) := h
    have h3 : j = i := by exact_mod_cast h2
    rw [h3]

/-- C2 counterexample: in `UPDATE SELECT` the earliest verb occurrence is
`UPDATE` at index 0, yet `isSQL` returns 7, the index of `SELECT`, because
verbs are tried in a fixed list order. -/
theorem c2_counterexample :
    isSQL (strToBytes "UPDATE SELECT") = 7 ∧
    strIndexOpt (strToBytes "UPDATE") ((strToBytes "UPDATE SELECT").map upperByte) = some 0 ∧
    (7 : Int) ≠ 0 := by
  decide

/-- C2 (amended): over an ASCII buffer, `isSQL` returns −1 exactly when no
verb occurs in the uppercased buffer, and otherwise returns the index of
the first occurrence of the first verb, in the fixed order SELECT, UPDATE,
DELETE, INSERT, ALTER, CREATE, DROP, that occurs anywhere — not the
minimum index over all verbs; that verb's bytes start at the returned
index. -/
theorem c2_verb_list_order (buf : Bytes) (hA : ∀ x ∈ buf, x < 128) :
    (isSQL buf = -1 ↔ ∀ q ∈ sqlVerbs, ¬ q <:+: buf.map upperByte) ∧
    (∀ i : Nat, isSQL buf = (i : Int) →
      ∃ qs1 q qs2, sqlVerbs = qs1 ++ q :: qs2 ∧
        (∀ q1 ∈ qs1, ¬ q1 <:+: buf.map upperByte) ∧
        strIndexOpt q (buf.map upperByte) = some i ∧
        ((buf.map upperByte).drop i).take q.length = q) := by
  constructor
  · rw [isSQL_neg_iff]
    exact firstVerbIdx_none_iff
  · intro i hi
    rcases firstVerbIdx_some (isSQL_some hi) with ⟨qs1, q, qs2, hqs, hnone, hidx⟩
    exact ⟨qs1, q, qs2, hqs, hnone, hidx, strIndexOpt_occurs_at hidx⟩

/-- C2 witness: the amended theorem applied to the ASCII buffer
`UPDATE SELECT` at the returned index 7. -/
theorem c2_verb_list_order_witness :
    ∃ qs1 q qs2, sqlVerbs = qs1 ++ q :: qs2 ∧
      (∀ q1 ∈ qs1, ¬ q1 <:+: (strToBytes "UPDATE SELECT").map upperByte) ∧
      strIndexOpt q ((strToBytes "UPDATE SELECT").map upperByte) = some 7 ∧
      (((strToBytes "UPDATE SELECT").map upperByte).drop 7).take q.length = q :=
  (c2_verb_list_order (strToBytes "UPDATE SELECT") (by decide)).2 7 (by decide)

/-- C10: over an ASCII buffer, the clamped payload prefix contains one of
the seven SQL verbs (case-insensitively, anywhere, with no word-boundary
check) exactly when a SQL-client span is produced; otherwise the record is
ignored, and in both cases no error is reported. -/
theorem c10_tcp_sql_detection (event : TCPRequestInfo)
    (hA : ∀ x ∈ event.Buf, x < 128) :
    ((∃ q ∈ sqlVerbs, q <:+:
        ((event.Buf.take (if event.Buf.length < event.Len then event.Buf.length
          else event.Len)).map upperByte)) →
      (tcpRequestLogic event).ignore = false ∧
      (tcpRequestLogic event).span.Typ = eventTypeSQLClient ∧
      (tcpRequestLogic event).err = false) ∧
    ((∀ q ∈ sqlVerbs, ¬ q <:+:
        ((event.Buf.take (if event.Buf.length < event.Len then event.Buf.length
          else event.Len)).map upperByte)) →
      (tcpRequestLogic event).ignore = true ∧
      (tcpRequestLogic event).span = {} ∧
      (tcpRequestLogic event).err = false) := by
  have hlogic : tcpRequestLogic event =
      (if isSQL (event.Buf.take (if event.Buf.length < event.Len then event.Buf.length
          else event.Len)) ≥ 0 then
        (⟨TCPToSQLToSpan event
            ((event.Buf.take (if event.Buf.length < event.Len then event.Buf.length
              else event.Len)).drop
              (isSQL (event.Buf.take (if event.Buf.length < event.Len then event.Buf.length
                else event.Len))).toNat), false, false⟩ : ReadResult)
      else ⟨{}, true, false⟩) := rfl
  constructor
  · intro hex
    rcases hex with ⟨q, hq, hinf⟩
    have hsome : ∃ i, firstVerbIdx sqlVerbs
        ((event.Buf.take (if event.Buf.length < event.Len then event.Buf.length
          else event.Len)).map upperByte) = some i := by
      cases h : firstVerbIdx sqlVerbs
          ((event.Buf.take (if event.Buf.length < event.Len then event.Buf.length
            else event.Len)).map upperByte) with
      | none => exact absurd hinf (firstVerbIdx_none_iff.mp h q hq)
      | some i => exact ⟨i, rfl⟩
    rcases hsome with ⟨i, hi⟩
    have hcond : isSQL (event.Buf.take (if event.Buf.length < event.Len
        then event.Buf.length else event.Len)) ≥ 0 := by
      unfold isSQL
      rw [hi]
      show (i : Int) ≥ 0
      omega
    rw [hlogic, if_pos hcond]
    exact ⟨rfl, rfl, rfl⟩
  · intro hall
    have hnone := firstVerbIdx_none_iff.mpr hall
    have hcond : ¬ isSQL (event.Buf.take (if event.Buf.length < event.Len
        then event.Buf.length else event.Len)) ≥ 0 := by
      unfold isSQL
      rw [hnone]
      show ¬ (-1 : Int) ≥ 0
      omega
    rw [hlogic, if_neg hcond]
    exact ⟨rfl, rfl, rfl⟩

/-- C10 witness: the detection theorem applied to a payload carrying a
SELECT statement and to an unrecognized payload. -/
theorem c10_tcp_sql_detection_witness :
    ((tcpRequestLogic tcpSelect).ignore = false ∧
      (tcpRequestLogic tcpSelect).span.Typ = eventTypeSQLClient) ∧
    (tcpRequestLogic tcpJunk).ignore = true :=
  ⟨⟨((c10_tcp_sql_detection tcpSelect (by decide)).1 (by decide)).1,
    ((c10_tcp_sql_detection tcpSelect (by decide)).1 (by decide)).2.1⟩,
   ((c10_tcp_sql_detection tcpJunk (by decide)).2 (by decide)).1⟩

/-- C6: context propagation is supported exactly when the kernel is older
than 5.10, or it is at least 5.10 and the file-derived lockdown mode is
`None` and the integrity-mode override flag is unset. -/
theorem c6_context_propagation (major minor : Nat) (override fileExists openOk : Bool)
    (firstLine : Option Bytes) :
    SupportsContextPropagation major minor override fileExists openOk firstLine = true ↔
      ((major < 5 ∨ (major = 5 ∧ minor < 10)) ∨
       (¬(major < 5 ∨ (major = 5 ∧ minor < 10)) ∧
        KernelLockdownMode fileExists openOk firstLine = KernelLockdown.None ∧
        override = false)) := by
  unfold SupportsContextPropagation effectiveKernelLockdown
  by_cases hv : major < 5 ∨ (major = 5 ∧ minor < 10)
  · simp [hv]
  · cases override with
    | true => simp [hv]
    | false => simp [hv]

/-- C7: the lockdown probe maps a missing file to `None`, an open failure
to `Integrity`, an empty file to `Integrity`, and otherwise classifies the
first line by its bracketed token, checking `[none]`, `[integrity]`,
`[confidentiality]` in that order with `Other` as fallback. -/
theorem c7_lockdown_file_mapping (openOk : Bool) (fl : Option Bytes) (line : Bytes) :
    KernelLockdownMode false openOk fl = KernelLockdown.None ∧
    KernelLockdownMode true false fl = KernelLockdown.Integrity ∧
    KernelLockdownMode true true none = KernelLockdown.Integrity ∧
    (strContains line (strToBytes "[none]") = true →
      KernelLockdownMode true true (some line) = KernelLockdown.None) ∧
    (strContains line (strToBytes "[none]") = false →
      strContains line (strToBytes "[integrity]") = true →
      KernelLockdownMode true true (some line) = KernelLockdown.Integrity) ∧
    (strContains line (strToBytes "[none]") = false →
      strContains line (strToBytes "[integrity]") = false →
      strContains line (strToBytes "[confidentiality]") = true →
      KernelLockdownMode true true (some line) = KernelLockdown.Confidentiality) ∧
    (strContains line (strToBytes "[none]") = false →
      strContains line (strToBytes "[integrity]") = false →
      strContains line (strToBytes "[confidentiality]") = false →
      KernelLockdownMode true true (some line) = KernelLockdown.Other) := by
  refine ⟨by simp [KernelLockdownMode], by simp [KernelLockdownMode],
    by simp [KernelLockdownMode], ?_, ?_, ?_, ?_⟩ <;>
    intros <;> simp [KernelLockdownMode, *]

/-- C7 witness: the mapping theorem applied to the line
`none [integrity] confidentiality`, which classifies as `Integrity`. -/
theorem c7_lockdown_file_mapping_witness :
    KernelLockdownMode true true
      (some (strToBytes "none [integrity] confidentiality")) = KernelLockdown.Integrity :=
  (c7_lockdown_file_mapping true none
      (strToBytes "none [integrity] confidentiality")).2.2.2.2.1 (by decide) (by decide)

/-- C8: the dispatcher reads the event-kind byte at offset 0 and decodes
the whole record, again from offset 0, with the reader of that kind: 5 as
a SQL request trace, 6 as an HTTP info record, 7 as an HTTP/2 record, 8 as
a TCP request; every other kind (and only those) falls back to the legacy
HTTP request-trace layout, and an empty record is a decode error. -/
theorem c8_kind_dispatch (b0 : Nat) (rest : Bytes) :
    (b0 = EventTypeSQL →
      ReadHTTPRequestTraceAsSpan (b0 :: rest) = ReadSQLRequestTraceAsSpan (b0 :: rest)) ∧
    (b0 = EventTypeKHTTP →
      ReadHTTPRequestTraceAsSpan (b0 :: rest) = ReadHTTPInfoIntoSpan (b0 :: rest)) ∧
    (b0 = EventTypeKHTTP2 →
      ReadHTTPRequestTraceAsSpan (b0 :: rest) = ReadHTTP2InfoIntoSpan (b0 :: rest)) ∧
    (b0 = EventTypeTCP →
      ReadHTTPRequestTraceAsSpan (b0 :: rest) = ReadTCPRequestIntoSpan (b0 :: rest)) ∧
    (b0 ≠ EventTypeSQL → b0 ≠ EventTypeKHTTP → b0 ≠ EventTypeKHTTP2 → b0 ≠ EventTypeTCP →
      ReadHTTPRequestTraceAsSpan (b0 :: rest) =
        match parseHTTPRequestTrace (b0 :: rest) with
        | none => ⟨{}, true, true⟩
        | some event => ⟨HTTPRequestTraceToSpan event, false, false⟩) ∧
    ReadHTTPRequestTraceAsSpan [] = ⟨{}, true, true⟩ := by
  refine ⟨fun h => by subst h; rfl, fun h => by subst h; rfl, fun h => by subst h; rfl,
    fun h => by subst h; rfl, ?_, rfl⟩
  intro h5 h6 h7 h8
  show (if b0 = EventTypeSQL then ReadSQLRequestTraceAsSpan (b0 :: rest)
    else if b0 = EventTypeKHTTP then ReadHTTPInfoIntoSpan (b0 :: rest)
    else if b0 = EventTypeKHTTP2 then ReadHTTP2InfoIntoSpan (b0 :: rest)
    else if b0 = EventTypeTCP then ReadTCPRequestIntoSpan (b0 :: rest)
    else match parseHTTPRequestTrace (b0 :: rest) with
      | none => ⟨{}, true, true⟩
      | some event => ⟨HTTPRequestTraceToSpan event, false, false⟩) = _
  rw [if_neg h5, if_neg h6, if_neg h7, if_neg h8]

/-- C8 witness: the dispatch theorem applied to a record of kind 5 and to
a short record of the unknown kind 9, which falls back to the legacy
layout and errors out. -/
theorem c8_kind_dispatch_witness :
    ReadHTTPRequestTraceAsSpan [5] = ReadSQLRequestTraceAsSpan [5] ∧
    ReadHTTPRequestTraceAsSpan [9] = ⟨{}, true, true⟩ := by
  refine ⟨(c8_kind_dispatch 5 []).1 rfl, ?_⟩
  have h := (c8_kind_dispatch 9 []).2.2.2.2.1 (by decide) (by decide) (by decide) (by decide)
  rw [h]
  rfl

end Beyla
